import Mathlib

/-!
# Verification of the Virtual Boy VIP emulator core (vboy.cpp)

Shallow embedding of the VIP display/register/timer emulation from
`src/mame/drivers/vboy.cpp`, together with proofs settling the frozen
claims about it.  Machine integers are modelled as `Nat` (unsigned) or
`Int` (signed), with explicit masking where the C code masks or where a
fixed-width type truncates; the C `float` arithmetic of the affine
rasterizer is modelled exactly over `Rat` (every quantity there is a ratio
of machine integers and the claims proved do not depend on rounding).

The file has two parts: first all definitions (the embedding), then the
theorems about them.
-/

namespace Vboy

/-! ## Part 1 — Definitions -/

/-! ### Basic machine-arithmetic helpers -/

/-- Interpretation of a 16-bit word as a signed `int16_t` value
(two's complement), as done by the C casts `(int16_t)x`. -/
def toInt16 (n : Nat) : Int :=
  let v := n &&& 0xffff
  if v < 0x8000 then (v : Int) else (v : Int) - 0x10000

/-- C bitwise AND of a (possibly negative, two's-complement) `int` with a
low-bit mask `m = 2^k - 1`: equal to the value modulo `2^k`. -/
def maskI (v : Int) (m : Nat) : Nat :=
  (v % ((m + 1 : Nat) : Int)).toNat

/-- C cast `(int32_t)q` of an exactly represented float value: truncation
toward zero. -/
def c_int32_of_rat (q : Rat) : Int :=
  Int.tdiv q.num (q.den : Int)

/-- Wrap-around of an `int` value stored into an `int16_t` variable
(two's complement). -/
def wrap16 (v : Int) : Int :=
  ((v + 0x8000) % 0x10000) - 0x8000

/-- Pointwise store into a word-indexed memory modelled as a function. -/
def upd (f : Nat → Nat) (i v : Nat) : Nat → Nat :=
  fun j => if j = i then v else f j

/-! ### Hardware I/O registers and the programmable timer

Embedding of `vboy_regs_t`, `vboy_timer_t`, `vboy_state::io_w` and
`vboy_state::m_timer_tick`.  The CPU interrupt line 1 (timer) is carried
as a `Bool` field; the one-shot `m_maintimer->adjust(attotime::from_hz h)`
calls are recorded in the `maintimer_hz` field (the event scheduling itself
lives in the host emulator). -/

/-- The I/O register block (`vboy_regs_t`).  `tlb`/`thb` are `uint8_t` in
the source, the others behave as the source stores them. -/
structure vboy_regs_t where
  lpc : Nat := 0
  lpc2 : Nat := 0
  lpt : Nat := 0
  lpr : Nat := 0
  khb : Nat := 0
  klb : Nat := 0
  thb : Nat := 0
  tlb : Nat := 0
  tcr : Nat := 0
  wcr : Nat := 0
  kcr : Nat := 0x80
  deriving DecidableEq

/-- The 16-bit down-counter state (`vboy_timer_t`). -/
structure vboy_timer_t where
  count : Nat := 0
  latch : Nat := 0
  deriving DecidableEq

/-- Hardware state touched by the I/O dispatcher and the timer tick. -/
structure HwState where
  regs : vboy_regs_t
  timer : vboy_timer_t
  /-- CPU input line 1 (timer interrupt), true = asserted. -/
  line1 : Bool
  /-- Rate at which the one-shot main timer was last armed. -/
  maintimer_hz : Nat
  deriving DecidableEq

/-- `vboy_state::io_w`: the memory-mapped I/O write dispatcher.  `addr` is
the byte offset (`offset << 2` in the source switch), `input` is the
current 16-bit keypad snapshot (`ioport("INPUT")->read()`). -/
def io_w (st : HwState) (addr data input : Nat) : HwState :=
  match addr with
  | 0x18 => -- TLB
    let tlb' := data &&& 0xff
    { st with regs := { st.regs with tlb := tlb' },
              timer := { st.timer with latch := tlb' ||| (st.timer.latch &&& 0xff00) } }
  | 0x1c => -- THB
    let thb' := data &&& 0xff
    { st with regs := { st.regs with thb := thb' },
              timer := { st.timer with latch := (thb' <<< 8) ||| (st.timer.latch &&& 0xff) } }
  | 0x20 => -- TCR
    let st1 := if data &&& 0x08 = 0 then { st with line1 := false } else st
    let st2 :=
      if data &&& 1 ≠ 0 then
        let st2a := { st1 with
          regs := { st1.regs with tlb := st1.timer.latch &&& 0xff,
                                  thb := st1.timer.latch >>> 8 },
          timer := { st1.timer with count := st1.timer.latch } }
        if st2a.regs.tcr &&& 1 = 0 then
          { st2a with maintimer_hz := if data &&& 0x10 ≠ 0 then 50000 else 10000 }
        else st2a
      else st1
    let st3 := { st2 with
      regs := { st2.regs with tcr := (data &&& 0xfd) ||| 0xe4 ||| (st2.regs.tcr &&& 2) } }
    if data &&& 4 ≠ 0 then
      { st3 with regs := { st3.regs with tcr := st3.regs.tcr &&& 0xfd } }
    else st3
  | 0x24 => -- WCR
    { st with regs := { st.regs with wcr := data ||| 0xfc } }
  | 0x28 => -- KCR
    let st1 := if data &&& 0x04 ≠ 0 then
        { st with regs := { st.regs with klb := input &&& 0x00ff,
                                         khb := (input &&& 0xff00) >>> 8 } }
      else st
    let st2 := if data &&& 1 ≠ 0 then
        { st1 with regs := { st1.regs with klb := 0, khb := 0 } }
      else st1
    { st2 with regs := { st2.regs with kcr := (data ||| 0x48) &&& 0xfd } }
  | _ => st

/-- `vboy_state::m_timer_tick`: one tick of the programmable timer. -/
def m_timer_tick (st : HwState) : HwState :=
  let st1 := if st.timer.count > 0 then
      let c := st.timer.count - 1
      { st with regs := { st.regs with tlb := c &&& 0xff, thb := c >>> 8 },
                timer := { st.timer with count := c } }
    else st
  let st2 := if st1.timer.count = 0 then
      let st2a := { st1 with timer := { st1.timer with count := st1.timer.latch },
                             regs := { st1.regs with tcr := st1.regs.tcr ||| 0x02 } }
      if st2a.regs.tcr &&& 8 ≠ 0 then { st2a with line1 := true } else st2a
    else st1
  { st2 with maintimer_hz := if st2.regs.tcr &&& 0x10 ≠ 0 then 50000 else 10000 }

/-- A concrete hardware state with zero latch, zero counter, zero mirrors
and the timer interrupt enabled (TCR bit 3 set); used as witness input. -/
def c10_state : HwState :=
  { regs := { tcr := 8 }, timer := {}, line1 := false, maintimer_hz := 0 }

/-! ### Character table (font memory) and its pre-flipped mirrors

The font store is `(0x8000 >> 1) * 4 * 2 = 0x20000` 16-bit words, modelled
as a total function on word indices.  `WRITE_FONT` is the macro of the
source: it combines the incoming data into the primary word and fans the
result out to the seven mirror locations. -/

/-- The MAME `BIT(val, n)` helper. -/
def BIT (v n : Nat) : Nat := (v >>> n) &&& 1

/-- The row transformation used for the horizontal-flip mirrors:
`bitswap<16>(dat, 1,0,3,2,5,4,7,6,9,8,11,10,13,12,15,14)`.  In MAME's
convention the first list entry gives the source bit of result bit 15, so
the result's bits 15..0 are `(b1,b0,b3,b2,...,b15,b14)` of the input: the
eight 2-bit pixels are reversed in order, each pixel kept intact. -/
def bitswap_pairs (v : Nat) : Nat :=
  (BIT v 1) <<< 15 ||| (BIT v 0) <<< 14 ||| (BIT v 3) <<< 13 ||| (BIT v 2) <<< 12 |||
  (BIT v 5) <<< 11 ||| (BIT v 4) <<< 10 ||| (BIT v 7) <<< 9 ||| (BIT v 6) <<< 8 |||
  (BIT v 9) <<< 7 ||| (BIT v 8) <<< 6 ||| (BIT v 11) <<< 5 ||| (BIT v 10) <<< 4 |||
  (BIT v 13) <<< 3 ||| (BIT v 12) <<< 2 ||| (BIT v 15) <<< 1 ||| (BIT v 14) <<< 0

/-- MAME's `COMBINE_DATA` on a 16-bit word:
`*ptr = (*ptr & ~mem_mask) | (data & mem_mask)`. -/
def COMBINE_DATA (old data mem_mask : Nat) : Nat :=
  (old &&& ((mem_mask &&& 0xffff) ^^^ 0xffff)) ||| (data &&& (mem_mask &&& 0xffff))

/-- The `WRITE_FONT(woffs)` macro: masked write to the primary word plus
the seven mirror writes (normal copy, two flip-y, two flip-x, two
flip-x+y). -/
def WRITE_FONT (font : Nat → Nat) (woffs data mem_mask : Nat) : Nat → Nat :=
  let f0 := upd font woffs (COMBINE_DATA (font woffs) data mem_mask)
  let dat := f0 woffs
  let f1 := upd f0 (woffs + 0x4000) dat
  let f2 := upd f1 ((woffs + 0x8000) ^^^ 7) dat
  let f3 := upd f2 ((woffs + 0xc000) ^^^ 7) dat
  let dat2 := bitswap_pairs dat
  let f4 := upd f3 (woffs + 0x10000) dat2
  let f5 := upd f4 (woffs + 0x14000) dat2
  let f6 := upd f5 ((woffs + 0x18000) ^^^ 7) dat2
  upd f6 ((woffs + 0x1c000) ^^^ 7) dat2

/-- The `READ_FONT(roffs)` macro: reads mask the address to 17 bits. -/
def READ_FONT (font : Nat → Nat) (roffs : Nat) : Nat :=
  font (roffs &&& 0x1ffff)

/-- Initial font memory (`make_unique_clear`): all zeros. -/
def font_init : Nat → Nat := fun _ => 0

/-- `vboy_state::font0_w`: bank-0 window (word offsets `0 .. 0xfff`). -/
def font0_w (font : Nat → Nat) (offset data mem_mask : Nat) : Nat → Nat :=
  WRITE_FONT font offset data mem_mask

/-- `vboy_state::font1_w`: bank-1 window. -/
def font1_w (font : Nat → Nat) (offset data mem_mask : Nat) : Nat → Nat :=
  WRITE_FONT font (offset + 0x1000) data mem_mask

/-- `vboy_state::font2_w`: bank-2 window. -/
def font2_w (font : Nat → Nat) (offset data mem_mask : Nat) : Nat → Nat :=
  WRITE_FONT font (offset + 0x2000) data mem_mask

/-- `vboy_state::font3_w`: bank-3 window. -/
def font3_w (font : Nat → Nat) (offset data mem_mask : Nat) : Nat → Nat :=
  WRITE_FONT font (offset + 0x3000) data mem_mask

/-- One host-CPU write through a primary character-table window.  The four
windows `font0_w .. font3_w` (and their mirror windows, which are mapped to
the same handlers) together produce exactly the `WRITE_FONT` calls with
word offsets in `[0, 0x4000)`; the offset is therefore carried as
`Fin 0x4000`. -/
structure FontWrite where
  woffs : Fin 0x4000
  data : Nat
  mem_mask : Nat

/-- Font memory after a sequence of writes through the primary windows,
starting from the cleared initial store. -/
def apply_font_writes (ws : List FontWrite) : Nat → Nat :=
  ws.foldl (fun f wr => WRITE_FONT f wr.woffs.val wr.data wr.mem_mask) font_init

/-! ### BGMap memory and the background-map pixel sampler -/

/-- The `READ_BGMAP(bgoffs)` macro: word reads mask the offset to 16 bits. -/
def READ_BGMAP (bgmap : Nat → Nat) (bgoffs : Nat) : Nat :=
  bgmap (bgoffs &&& 0xffff)

/-- The `READ_WORLD(wldoffs)` macro: world-attribute table at word
`0x1d800 >> 1`. -/
def READ_WORLD (bgmap : Nat → Nat) (wldoffs : Nat) : Nat :=
  READ_BGMAP bgmap ((0x1d800 >>> 1) + wldoffs)

/-- The `READ_OBJECTS(wldoffs)` macro: object-attribute table at word
`0x1e000 >> 1`. -/
def READ_OBJECTS (bgmap : Nat → Nat) (wldoffs : Nat) : Nat :=
  READ_BGMAP bgmap ((0x1e000 >>> 1) + wldoffs)

/-- The `READ_OVR_TEMPDRAW_MAP(roffs)` macro: the 64-entry overflow-tile
scratch map, index masked to 6 bits. -/
def READ_OVR_TEMPDRAW_MAP (m : Nat → Int) (roffs : Nat) : Int :=
  m (roffs &&& 0x3f)

/-- The bgmap word offset fetched by `vboy_state::get_bg_map_pixel` for
segment `num` and (masked, hence nonnegative) source coordinates
`(xpos, ypos)`:  `x = xpos >> 3`, `y = ypos >> 3`,
`stepx = (x & 0x1c0) >> 6`, `stepy = ((y & 0x1c0) >> 6) * (stepx + 1)`,
offset `(x & 0x3f) + 64*(y & 0x3f) + (num + stepx + stepy) * 0x1000`. -/
def bg_map_fetch_offset (num xpos ypos : Nat) : Nat :=
  let y := ypos >>> 3
  let x := xpos >>> 3
  let stepx := (x &&& 0x1c0) >>> 6
  let stepy := ((y &&& 0x1c0) >>> 6) * (stepx + 1)
  (x &&& 0x3f) + 64 * (y &&& 0x3f) + (num + stepx + stepy) * 0x1000

/-- Modelled from the spec (the formula claimed in C1, for comparison with
the source's `bg_map_fetch_offset`): `cx = x >> 3`, `cy = y >> 3`,
`stepx = (cx >> 6) & 3`, `stepy = ((cy >> 6) & 3) * (stepx+1)`, offset
`(cx & 63) + 64*(cy & 63) + 0x1000 * (segment + stepx + stepy)`. -/
def bg_map_fetch_offset_claimed (num xpos ypos : Nat) : Nat :=
  let cy := ypos >>> 3
  let cx := xpos >>> 3
  let stepx := (cx >>> 6) &&& 3
  let stepy := ((cy >>> 6) &&& 3) * (stepx + 1)
  (cx &&& 63) + 64 * (cy &&& 63) + 0x1000 * (num + stepx + stepy)

/-- The 2-bit character value sampled by `get_bg_map_pixel` (the `dat`
local of the source). -/
def bg_sample_dat (bgmap font : Nat → Nat) (num xpos ypos : Nat) : Nat :=
  let val := READ_BGMAP bgmap (bg_map_fetch_offset num xpos ypos)
  let code := val &&& 0x3fff
  let data := READ_FONT font (code * 8 + (ypos &&& 7))
  (data >>> ((xpos &&& 7) <<< 1)) &&& 3

/-- `vboy_state::get_bg_map_pixel`: sample one background pixel, returning
the 2-bit palette-mapped color, or `-1` for transparent.  `gplt` is the
`GPLT` palette register file. -/
def get_bg_map_pixel (bgmap gplt font : Nat → Nat) (num xpos ypos : Nat) : Int :=
  let val := READ_BGMAP bgmap (bg_map_fetch_offset num xpos ypos)
  let pal := gplt ((val >>> 14) &&& 3)
  let dat := bg_sample_dat bgmap font num xpos ypos
  if dat = 0 then -1
  else (((pal >>> (dat * 2)) &&& 3 : Nat) : Int)

/-! ### The Normal/HBias and Affine rasterizers

The output bitmap is a total function from `(x, y)` to the pen value; the
palette device's `pen(i)` lookup is an abstract function argument.  The
loop bodies are factored into named helpers so the theorems can speak
about the pixel considered at loop position `(x, y)`. -/

/-- Clip rectangle (`rectangle` in the source). -/
structure Clip where
  min_x : Int
  max_x : Int
  min_y : Int
  max_y : Int
  deriving DecidableEq

/-- The `cliprect.contains(x, y)` test. -/
def Clip.contains (c : Clip) (x y : Int) : Bool :=
  c.min_x ≤ x && x ≤ c.max_x && c.min_y ≤ y && y ≤ c.max_y

/-- Source x coordinate considered by `draw_bg_map` at loop position
`(x, y)` (before masking): `x + mx`, plus the HBias column-table entry in
mode 1, plus the signed parallax. -/
def bg_src_x (bgmap : Nat → Nat) (param_base mode : Nat) (mx mp : Int)
    (right : Bool) (x y : Nat) : Int :=
  (x : Int) + mx +
    (if mode = 1 then
      toInt16 (READ_BGMAP bgmap (param_base + (y * 2 + (if right then 0 else 1))))
    else 0) +
    (if right then -mp else mp)

/-- The pixel value (`pix`) computed by `draw_bg_map` at loop position
`(x, y)`: the overflow scratch map when `ovr` is set and the source
coordinate leaves the map area, otherwise a masked `get_bg_map_pixel`
sample. -/
def bg_pix (bgmap gplt font : Nat → Nat) (ovrm : Nat → Int)
    (param_base mode : Nat) (mx mp my : Int) (x_mask y_mask : Nat)
    (ovr right : Bool) (bg_map_num : Nat) (x y : Nat) : Int :=
  let src_y : Int := (y : Int) + my
  let src_x : Int := bg_src_x bgmap param_base mode mx mp right x y
  if ovr then
    if src_x > (x_mask : Int) ∨ src_y > (y_mask : Int) ∨ src_x < 0 ∨ src_y < 0 then
      READ_OVR_TEMPDRAW_MAP ovrm ((maskI src_y 7) * 8 + (maskI src_x 7))
    else
      get_bg_map_pixel bgmap gplt font bg_map_num (maskI src_x x_mask) (maskI src_y y_mask)
  else
    get_bg_map_pixel bgmap gplt font bg_map_num (maskI src_x x_mask) (maskI src_y y_mask)

/-- Destination x coordinate of `draw_bg_map` at loop position `x`. -/
def bg_dest_x (gx gp : Int) (right : Bool) (x : Nat) : Int :=
  (x : Int) + gx + (if right then -gp else gp)

/-- `vboy_state::draw_bg_map` (modes 0 = Normal, 1 = HBias). -/
def draw_bg_map (bgmap gplt font : Nat → Nat) (ovrm : Nat → Int)
    (pen : Nat → Nat) (bitmap : Int × Int → Nat) (clip : Clip)
    (param_base mode : Nat) (gx gp gy mx mp my : Int) (h w : Nat)
    (x_mask y_mask : Nat) (ovr right : Bool) (bg_map_num : Nat) :
    Int × Int → Nat :=
  (List.range (h + 1)).foldl (fun bm (y : Nat) =>
    let y1 : Int := (y : Int) + gy
    if y1 < clip.min_y ∨ y1 > clip.max_y then bm
    else
      (List.range (w + 1)).foldl (fun bm2 (x : Nat) =>
        let x1 : Int := bg_dest_x gx gp right x
        if x1 < clip.min_x ∨ x1 > clip.max_x then bm2
        else
          let pix := bg_pix bgmap gplt font ovrm param_base mode mx mp my
            x_mask y_mask ovr right bg_map_num x y
          if pix ≠ -1 then
            fun p => if p = (x1, y1) then pen (maskI pix 3) else bm2 p
          else bm2) bm) bitmap

/-- Source coordinates computed by `draw_affine_map` at loop position
`(x, y)`: the five per-row `int16_t` parameters are read at
`param_base + 8*y + {0..4}`, scaled exactly (`/8`, `/8`, `/8`, `/512`,
`/512`), the parallax folded into the horizontal skew, and the resulting
float values truncated to `int32_t`. -/
def affine_src (bgmap : Nat → Nat) (param_base : Nat) (right : Bool)
    (x y : Nat) : Int × Int :=
  let h_skw : Rat := (toInt16 (READ_BGMAP bgmap (param_base + (y * 8 + 0))) : Rat) / 8
  let prlx : Rat := (toInt16 (READ_BGMAP bgmap (param_base + (y * 8 + 1))) : Rat) / 8
  let v_skw : Rat := (toInt16 (READ_BGMAP bgmap (param_base + (y * 8 + 2))) : Rat) / 8
  let h_scl : Rat := (toInt16 (READ_BGMAP bgmap (param_base + (y * 8 + 3))) : Rat) / 512
  let v_scl : Rat := (toInt16 (READ_BGMAP bgmap (param_base + (y * 8 + 4))) : Rat) / 512
  let h_skw := h_skw + (if right then -prlx else prlx)
  (c_int32_of_rat (h_skw + h_scl * (x : Rat)), c_int32_of_rat (v_skw + v_scl * (x : Rat)))

/-- The pixel value (`pix`) computed by `draw_affine_map` at loop position
`(x, y)`. -/
def affine_pix (bgmap gplt font : Nat → Nat) (ovrm : Nat → Int)
    (param_base : Nat) (x_mask y_mask : Nat) (ovr right : Bool)
    (bg_map_num : Nat) (x y : Nat) : Int :=
  let s := affine_src bgmap param_base right x y
  let src_x := s.1
  let src_y := s.2
  if ovr ∧ (src_y > (y_mask : Int) ∨ src_x > (x_mask : Int) ∨ src_x < 0 ∨ src_y < 0) then
    READ_OVR_TEMPDRAW_MAP ovrm ((maskI src_y 7) * 8 + (maskI src_x 7))
  else
    get_bg_map_pixel bgmap gplt font bg_map_num (maskI src_x x_mask) (maskI src_y y_mask)

/-- Destination coordinates of `draw_affine_map` at loop position
`(x, y)`; the intermediates are `int16_t` and wrap. -/
def affine_dest (gx gp gy : Int) (right : Bool) (x y : Nat) : Int × Int :=
  (wrap16 (wrap16 ((x : Int) + gx) + (if right then -gp else gp)),
   wrap16 ((y : Int) + gy))

/-- `vboy_state::draw_affine_map` (mode 2 = Affine). -/
def draw_affine_map (bgmap gplt font : Nat → Nat) (ovrm : Nat → Int)
    (pen : Nat → Nat) (bitmap : Int × Int → Nat) (clip : Clip)
    (param_base : Nat) (gx gp gy : Int) (h w : Nat) (x_mask y_mask : Nat)
    (ovr right : Bool) (bg_map_num : Nat) : Int × Int → Nat :=
  (List.range (h + 1)).foldl (fun bm (y : Nat) =>
    (List.range (w + 1)).foldl (fun bm2 (x : Nat) =>
      let d := affine_dest gx gp gy right x y
      let pix := affine_pix bgmap gplt font ovrm param_base x_mask y_mask
        ovr right bg_map_num x y
      if pix ≠ -1 then
        if Clip.contains clip d.1 d.2 then
          fun p => if p = d then pen (maskI pix 3) else bm2 p
        else bm2
      else bm2) bm) bitmap

/-! ### VIP registers, interrupt line and register writes -/

/-- The VIP state: the two graphics stores plus the `vip_regs_t` register
file, the CPU interrupt line 4, and the three visible palette pens set by
`m_set_brightness`.  `SPT`, `GPLT`, `JPLT` are the four-entry register
arrays (indexed `0..3` everywhere they are used). -/
structure VipState where
  bgmap : Nat → Nat
  font : Nat → Nat
  INTPND : Nat
  INTENB : Nat
  DPSTTS : Nat
  DPCTRL : Nat
  BRTA : Nat
  BRTB : Nat
  BRTC : Nat
  REST : Nat
  FRMCYC : Nat
  CTA : Nat
  XPSTTS : Nat
  XPCTRL : Nat
  VER : Nat
  SPT : Nat → Nat
  GPLT : Nat → Nat
  JPLT : Nat → Nat
  BKCOL : Nat
  /-- CPU input line 4 (VIP interrupt), true = asserted. -/
  line4 : Bool
  /-- Grayscale values of palette pens (index 1, 2, 3 are set). -/
  pens : Nat → Nat

/-- `vboy_state::m_set_brightness`: recompute the three visible pens from
the brightness plateaus.  (The `< 0` clamps of the source are no-ops on
these unsigned sums and are dropped.) -/
def m_set_brightness (st : VipState) : VipState :=
  let a := (0xff * st.BRTA) / 0x80
  let b := (0xff * (st.BRTA + st.BRTB)) / 0x80
  let c := (0xff * (st.BRTA + st.BRTB + st.BRTC)) / 0x80
  let a := if a > 0xff then 0xff else a
  let b := if b > 0xff then 0xff else b
  let c := if c > 0xff then 0xff else c
  { st with pens := upd (upd (upd st.pens 1 a) 2 b) 3 c }

/-- `vboy_state::m_set_irq`: merge a vector into INTPND, then assert CPU
line 4 if `INTENB & INTPND` is nonzero and clear it if that conjunction is
zero. -/
def m_set_irq (st : VipState) (irq_vector : Nat) : VipState :=
  let pnd := st.INTPND ||| irq_vector
  let st := { st with INTPND := pnd }
  if st.INTENB &&& st.INTPND ≠ 0 then { st with line4 := true }
  else { st with line4 := false }

/-- `vboy_state::vip_w`: the VIP register write dispatcher.  `addr` is the
byte offset (`offset << 1` in the source switch). -/
def vip_w (st : VipState) (addr data : Nat) : VipState :=
  match addr with
  | 0x02 => m_set_irq { st with INTENB := data } 0
  | 0x04 => m_set_irq { st with INTPND := st.INTPND &&& ((data &&& 0xffff) ^^^ 0xffff) } 0
  | 0x22 =>
    let st := { st with DPCTRL := data &&& 0x0702 }
    if data &&& 1 ≠ 0 then m_set_irq { st with INTPND := st.INTPND &&& 0xe000 } 0
    else st
  | 0x24 => m_set_brightness { st with BRTA := data }
  | 0x26 => m_set_brightness { st with BRTB := data }
  | 0x28 => m_set_brightness { st with BRTC := data }
  | 0x2a => m_set_brightness { st with REST := data }
  | 0x2e => { st with FRMCYC := data }
  | 0x30 => { st with CTA := data }
  | 0x42 =>
    let st := { st with XPCTRL := data &&& 0x1f02 }
    if data &&& 1 ≠ 0 then m_set_irq { st with INTPND := st.INTPND &&& 0x1fff } 0
    else st
  | 0x48 => { st with SPT := upd st.SPT 0 (data &&& 0x3ff) }
  | 0x4a => { st with SPT := upd st.SPT 1 (data &&& 0x3ff) }
  | 0x4c => { st with SPT := upd st.SPT 2 (data &&& 0x3ff) }
  | 0x4e => { st with SPT := upd st.SPT 3 (data &&& 0x3ff) }
  | 0x60 => { st with GPLT := upd st.GPLT 0 data }
  | 0x62 => { st with GPLT := upd st.GPLT 1 data }
  | 0x64 => { st with GPLT := upd st.GPLT 2 data }
  | 0x66 => { st with GPLT := upd st.GPLT 3 data }
  | 0x68 => { st with JPLT := upd st.JPLT 0 (data &&& 0xfc) }
  | 0x6a => { st with JPLT := upd st.JPLT 1 (data &&& 0xfc) }
  | 0x6c => { st with JPLT := upd st.JPLT 2 (data &&& 0xfc) }
  | 0x6e => { st with JPLT := upd st.JPLT 3 (data &&& 0xfc) }
  | 0x70 => { st with BKCOL := data &&& 3 }
  | _ => st

/-! ### The world walker -/

/-- The rendering activity a world performs, tagged with the world number
that produced it.  `fillOvr` is the overflow-tile scratch setup
(`fill_ovr_char`), `drawBg`/`drawAffine` are `draw_bg_map` and
`draw_affine_map` invocations with the arguments the walker passes, and
`putObj` is a `put_obj` sprite-cell draw. -/
inductive DrawCmd where
  | fillOvr (world code pal : Nat)
  | drawBg (world param_base mode : Nat) (gx gp gy mx mp my : Int)
      (h w x_mask y_mask : Nat) (ovr right : Bool) (bg_map_num : Nat)
  | drawAffine (world param_base : Nat) (gx gp gy : Int)
      (h w x_mask y_mask : Nat) (ovr right : Bool) (bg_map_num : Nat)
  | putObj (world x : Nat) (y : Int) (code pal : Nat)
  deriving DecidableEq

/-- The world number a command was produced by. -/
def DrawCmd.world : DrawCmd → Nat
  | .fillOvr n _ _ => n
  | .drawBg n _ _ _ _ _ _ _ _ _ _ _ _ _ _ _ => n
  | .drawAffine n _ _ _ _ _ _ _ _ _ _ _ => n
  | .putObj n _ _ _ _ => n

/-- The index sequence of the object walker's `do { ... i--; i &= 0x3ff; }
while (i != end_offs)` loop: visit `i`, decrement modulo 1024, stop when
the decremented index equals `end_offs`.  The fuel argument bounds the
iteration count; `0x400` units are enough whenever `end_offs < 0x400`
(which holds for every SPT value, as SPT registers are masked with 0x3ff
on write), making this an exact model of the source loop. -/
def obj_walk (end_offs : Nat) : Nat → Nat → List Nat
  | 0, _ => []
  | fuel + 1, i =>
    let i2 := maskI ((i : Int) - 1) 0x3ff
    i :: (if i2 = end_offs then [] else obj_walk end_offs fuel i2)

/-- Entry indices visited by an object-group walk from `start` (inclusive)
down to `end_offs` (exclusive), modulo 1024. -/
def obj_walk_list (start end_offs : Nat) : List Nat :=
  obj_walk end_offs 0x400 start

/-- The number of entries the object walker visits (closed form). -/
def obj_walk_len (start end_offs : Nat) : Nat :=
  if start = end_offs then 0x400 else (start + 0x400 - end_offs) % 0x400

/-- The `put_obj` dispatches of one object-attribute entry `i`, for the
given eye. -/
def obj_entry_cmds (st : VipState) (num : Nat) (right : Bool) (i : Nat) :
    List DrawCmd :=
  let start_ndx := i * 4
  let jx := toInt16 (READ_OBJECTS st.bgmap (start_ndx + 0))
  let jp := toInt16 (READ_OBJECTS st.bgmap (start_ndx + 1) &&& 0x3fff)
  let jy := toInt16 (READ_OBJECTS st.bgmap (start_ndx + 2) &&& 0x1ff)
  let val := READ_OBJECTS st.bgmap (start_ndx + 3)
  let jlon := (READ_OBJECTS st.bgmap (start_ndx + 1) &&& 0x8000) >>> 15
  let jron := (READ_OBJECTS st.bgmap (start_ndx + 1) &&& 0x4000) >>> 14
  (if ¬right ∧ jlon ≠ 0 then
    [DrawCmd.putObj num (maskI (jx - jp) 0x1ff) jy (val &&& 0x3fff)
      (st.JPLT ((val >>> 14) &&& 3))]
  else []) ++
  (if right ∧ jron ≠ 0 then
    [DrawCmd.putObj num (maskI (jx + jp) 0x1ff) jy (val &&& 0x3fff)
      (st.JPLT ((val >>> 14) &&& 3))]
  else [])

/-- `vboy_state::display_world`: decode world `num`, and return the draw
activity it performs, the updated shared object-group cursor, and the
return flag (1 = END world, walk stops). -/
def display_world (st : VipState) (num : Nat) (right : Bool) (cur_spt : Int) :
    List DrawCmd × Int × Nat :=
  let num4 := num <<< 4
  let def_ := READ_WORLD st.bgmap num4
  let lon := (def_ >>> 15) &&& 1
  let ron := (def_ >>> 14) &&& 1
  let mode := (def_ >>> 12) &&& 3
  let scx := 64 <<< ((def_ >>> 10) &&& 3)
  let scy := 64 <<< ((def_ >>> 8) &&& 3)
  let ovr := (def_ >>> 7) &&& 1
  let end_ := (def_ >>> 6) &&& 1
  let gx := toInt16 (READ_WORLD st.bgmap (num4 + 1))
  let gp := toInt16 (READ_WORLD st.bgmap (num4 + 2))
  let gy := toInt16 (READ_WORLD st.bgmap (num4 + 3))
  let mx := toInt16 (READ_WORLD st.bgmap (num4 + 4))
  let mp := toInt16 (READ_WORLD st.bgmap (num4 + 5))
  let my := toInt16 (READ_WORLD st.bgmap (num4 + 6))
  let w := READ_WORLD st.bgmap (num4 + 7)
  let h := READ_WORLD st.bgmap (num4 + 8)
  let param_base := READ_WORLD st.bgmap (num4 + 9) &&& 0xfff0
  let ovr_char := READ_BGMAP st.bgmap (READ_WORLD st.bgmap (num4 + 10))
  let bg_map_num := def_ &&& 0x0f
  if end_ ≠ 0 then ([], cur_spt, 1)
  else if mode < 2 then
    let c0 : List DrawCmd :=
      if ovr ≠ 0 then
        [.fillOvr num (ovr_char &&& 0x3fff) (st.GPLT ((ovr_char >>> 14) &&& 3))]
      else []
    let cl : List DrawCmd :=
      if lon ≠ 0 ∧ ¬right then
        [.drawBg num param_base mode gx gp gy mx mp my h w
          (scx * 8 - 1) (scy * 8 - 1) (ovr ≠ 0) right bg_map_num]
      else []
    let cr : List DrawCmd :=
      if ron ≠ 0 ∧ right then
        [.drawBg num param_base mode gx gp gy mx mp my h w
          (scx * 8 - 1) (scy * 8 - 1) (ovr ≠ 0) right bg_map_num]
      else []
    (c0 ++ cl ++ cr, cur_spt, 0)
  else if mode = 2 then
    let c0 : List DrawCmd :=
      if ovr ≠ 0 then
        [.fillOvr num (ovr_char &&& 0x3fff) (st.GPLT ((ovr_char >>> 14) &&& 3))]
      else []
    let cl : List DrawCmd :=
      if lon ≠ 0 ∧ ¬right then
        [.drawAffine num param_base gx gp gy h w
          (scx * 8 - 1) (scy * 8 - 1) (ovr ≠ 0) right bg_map_num]
      else []
    let cr : List DrawCmd :=
      if ron ≠ 0 ∧ right then
        [.drawAffine num param_base gx gp gy h w
          (scx * 8 - 1) (scy * 8 - 1) (ovr ≠ 0) right bg_map_num]
      else []
    (c0 ++ cl ++ cr, cur_spt, 0)
  else -- mode 3: OBJ
    if cur_spt = -1 then ([], cur_spt, 0)
    else
      let start_offs := st.SPT cur_spt.toNat
      let end_offs := if cur_spt ≠ 0 then st.SPT (cur_spt.toNat - 1) else 0x3ff
      let cmds := (obj_walk_list start_offs end_offs).flatMap
        (obj_entry_cmds st num right)
      let cur_spt' :=
        if (lon ≠ 0 ∧ ¬right) ∨ (ron ≠ 0 ∧ right) then cur_spt - 1 else cur_spt
      (cmds, cur_spt', 0)

/-- The world walk `for (i = 31; i >= 0; i--) if (display_world i) break;`
threading the shared object-group cursor, collecting each world's
activity.  The first argument is the current world index. -/
def walk_worlds (st : VipState) (right : Bool) : Nat → Int → List DrawCmd × Int
  | 0, spt =>
    let r := display_world st 0 right spt
    (r.1, r.2.1)
  | i + 1, spt =>
    let r := display_world st (i + 1) right spt
    if r.2.2 = 1 then (r.1, r.2.1)
    else
      let rest := walk_worlds st right i r.2.1
      (r.1 ++ rest.1, rest.2)

/-- Shared body of `screen_update_vboy_left` / `screen_update_vboy_right`:
fill the bitmap with the BKCOL pen inside the clip rectangle, then, only
if DPCTRL bit 1 (DISP) is set, walk the worlds from 31 down with
`cur_spt = 3`.  Returns the filled bitmap and the walk's activity. -/
def screen_update (st : VipState) (right : Bool) (pen : Nat → Nat)
    (bitmap : Int × Int → Nat) (clip : Clip) :
    (Int × Int → Nat) × List DrawCmd :=
  let bm : Int × Int → Nat :=
    fun p => if Clip.contains clip p.1 p.2 then pen st.BKCOL else bitmap p
  if st.DPCTRL &&& 2 = 0 then (bm, [])
  else (bm, (walk_worlds st right 31 3).1)

/-- `vboy_state::screen_update_vboy_left`. -/
def screen_update_vboy_left (st : VipState) (pen : Nat → Nat)
    (bitmap : Int × Int → Nat) (clip : Clip) :
    (Int × Int → Nat) × List DrawCmd :=
  screen_update st false pen bitmap clip

/-- `vboy_state::screen_update_vboy_right`. -/
def screen_update_vboy_right (st : VipState) (pen : Nat → Nat)
    (bitmap : Int × Int → Nat) (clip : Clip) :
    (Int × Int → Nat) × List DrawCmd :=
  screen_update st true pen bitmap clip

/-! ### Predicates and concrete states used by the theorems -/

/-- The interrupt-controller invariant: CPU line 4 is asserted iff some
pending interrupt is enabled. -/
def line4_ok (st : VipState) : Prop :=
  st.line4 = true ↔ st.INTENB &&& st.INTPND ≠ 0

/-- The END bit (bit 6 of word 0) of world `num`'s attribute entry. -/
@[reducible] def world_end (st : VipState) (num : Nat) : Prop :=
  (READ_WORLD st.bgmap (num <<< 4) >>> 6) &&& 1 ≠ 0

/-- The font-mirror invariant of the claims: for every tile `t` and row
`r`, the flip-y mirror holds the normal row `7 - r`, the flip-x mirror
holds the pair-reversed normal row `r`, and the flip-x+y mirror holds the
pair-reversed normal row `7 - r`. -/
def font_mirrors_ok (f : Nat → Nat) : Prop :=
  ∀ t : Fin 2048, ∀ r : Fin 8,
    f (0x8000 + 8 * t.val + r.val) = f (8 * t.val + (7 - r.val)) ∧
    f (0x10000 + 8 * t.val + r.val) = bitswap_pairs (f (8 * t.val + r.val)) ∧
    f (0x18000 + 8 * t.val + r.val) = bitswap_pairs (f (8 * t.val + (7 - r.val)))

/-- A concrete VIP state (all stores zero) with a pending-but-not-enabled
interrupt and a stale asserted line 4. -/
def c6_state : VipState :=
  { bgmap := fun _ => 0, font := fun _ => 0, INTPND := 0xffff, INTENB := 0,
    DPSTTS := 0, DPCTRL := 0, BRTA := 0, BRTB := 0, BRTC := 0, REST := 0,
    FRMCYC := 0, CTA := 0, XPSTTS := 0, XPCTRL := 0, VER := 0,
    SPT := fun _ => 0, GPLT := fun _ => 0, JPLT := fun _ => 0, BKCOL := 0,
    line4 := true, pens := fun _ => 0 }

/-- A concrete VIP state for the world-walk witnesses: world 31 is a
Normal-mode world with LON set, world 30 has its END bit set, DISP is on. -/
def c5_state : VipState :=
  { bgmap := fun i =>
      if i = (0x1d800 >>> 1) + (31 <<< 4) then 0x8000
      else if i = (0x1d800 >>> 1) + (30 <<< 4) then 0x40
      else 0,
    font := fun _ => 0, INTPND := 0, INTENB := 0,
    DPSTTS := 0, DPCTRL := 2, BRTA := 0, BRTB := 0, BRTC := 0, REST := 0,
    FRMCYC := 0, CTA := 0, XPSTTS := 0, XPCTRL := 0, VER := 0,
    SPT := fun _ => 0, GPLT := fun _ => 0, JPLT := fun _ => 0, BKCOL := 0,
    line4 := false, pens := fun _ => 0 }

/-- A concrete VIP state with the display disabled (DPCTRL bit 1 clear). -/
def c9_state : VipState :=
  { c5_state with DPCTRL := 0, BKCOL := 2 }

/-- "Pixel `q` of bitmap `bm` was painted by `draw_bg_map`": there is a
loop position `(x, y)` within the world size whose destination is `q`,
whose sampled pixel is not the transparent sentinel `-1`, and whose
palette-mapped color is what `bm` holds at `q`. -/
def bg_drawn (bgmap gplt font : Nat → Nat) (ovrm : Nat → Int)
    (pen : Nat → Nat) (param_base mode : Nat) (gx gp gy mx mp my : Int)
    (h w x_mask y_mask : Nat) (ovr right : Bool) (bg_map_num : Nat)
    (bm : Int × Int → Nat) (q : Int × Int) : Prop :=
  ∃ x y : Nat, x ≤ w ∧ y ≤ h ∧
    q = (bg_dest_x gx gp right x, (y : Int) + gy) ∧
    bg_pix bgmap gplt font ovrm param_base mode mx mp my x_mask y_mask
      ovr right bg_map_num x y ≠ -1 ∧
    bm q = pen (maskI (bg_pix bgmap gplt font ovrm param_base mode mx mp my
      x_mask y_mask ovr right bg_map_num x y) 3)

/-- "Pixel `q` of bitmap `bm` was painted by `draw_affine_map`". -/
def affine_drawn (bgmap gplt font : Nat → Nat) (ovrm : Nat → Int)
    (pen : Nat → Nat) (param_base : Nat) (gx gp gy : Int)
    (h w x_mask y_mask : Nat) (ovr right : Bool) (bg_map_num : Nat)
    (bm : Int × Int → Nat) (q : Int × Int) : Prop :=
  ∃ x y : Nat, x ≤ w ∧ y ≤ h ∧
    q = affine_dest gx gp gy right x y ∧
    affine_pix bgmap gplt font ovrm param_base x_mask y_mask
      ovr right bg_map_num x y ≠ -1 ∧
    bm q = pen (maskI (affine_pix bgmap gplt font ovrm param_base
      x_mask y_mask ovr right bg_map_num x y) 3)

end Vboy

namespace Vboy

/-! ## Part 2 — Theorems -/

/-! ### Bit-arithmetic lemmas -/

/-- Bits of `8*q + s` for `s < 8`: the low three bits come from `s`, the
remaining ones from `q`. -/
theorem testBit_mul8_add (q s : Nat) (hs : s < 8) (i : Nat) :
    Nat.testBit (8 * q + s) i =
      if i < 3 then Nat.testBit s i else Nat.testBit q (i - 3) := by
  match i with
  | 0 =>
    rw [if_pos (by omega), Nat.testBit_to_div_mod, Nat.testBit_to_div_mod]
    exact decide_eq_decide.mpr (by norm_num; omega)
  | 1 =>
    rw [if_pos (by omega), Nat.testBit_to_div_mod, Nat.testBit_to_div_mod]
    exact decide_eq_decide.mpr (by norm_num; omega)
  | 2 =>
    rw [if_pos (by omega), Nat.testBit_to_div_mod, Nat.testBit_to_div_mod]
    exact decide_eq_decide.mpr (by norm_num; omega)
  | j + 3 =>
    rw [if_neg (by omega), Nat.testBit_to_div_mod, Nat.testBit_to_div_mod]
    refine decide_eq_decide.mpr ?_
    have e2 : (2:Nat) ^ (j + 3) = 8 * 2 ^ j := by rw [pow_add]; ring
    have e1 : (8 * q + s) / 8 = q := by omega
    rw [e2, ← Nat.div_div_eq_div_mul, e1]
    simp

/-- `x ^ 7` on a nonnegative machine integer, characterised arithmetically:
it flips the low three bits. -/
theorem xor_seven_eq (x : Nat) : x ^^^ 7 = 8 * (x / 8) + (7 - x % 8) := by
  have h8 : 7 - x % 8 < 8 := by omega
  apply Nat.eq_of_testBit_eq
  intro i
  rw [Nat.testBit_xor, testBit_mul8_add (x / 8) (7 - x % 8) h8 i]
  by_cases h : i < 3
  · have hx : Nat.testBit x i = Nat.testBit (x % 8) i := by
      have h83 : (8 : Nat) = 2 ^ 3 := by norm_num
      rw [h83, Nat.testBit_mod_two_pow]
      simp [h]
    rw [hx, if_pos h]
    have hr : x % 8 < 8 := Nat.mod_lt _ (by norm_num)
    set r := x % 8 with hrdef
    clear_value r
    interval_cases r <;> interval_cases i <;> decide
  · have h7 : Nat.testBit 7 i = false :=
      Nat.testBit_lt_two_pow (by
        calc (7 : Nat) < 2 ^ 3 := by norm_num
        _ ≤ 2 ^ i := Nat.pow_le_pow_right (by norm_num) (by omega))
    rw [h7, if_neg h]
    simp only [Bool.xor_false]
    have hdiv : x / 8 = x >>> 3 := by
      rw [Nat.shiftRight_eq_div_pow]
    rw [hdiv, Nat.testBit_shiftRight]
    congr 1
    omega

/-- Extracting bits 8:6 with a pre-mask (`(n & 0x1c0) >> 6`) is the same as
shifting first and masking with 7. -/
theorem and_0x1c0_shiftRight (n : Nat) : (n &&& 0x1c0) >>> 6 = (n >>> 6) &&& 7 := by
  apply Nat.eq_of_testBit_eq
  intro i
  rw [Nat.testBit_shiftRight, Nat.testBit_and, Nat.testBit_and,
    Nat.testBit_shiftRight]
  congr 1
  by_cases h : i < 3
  · interval_cases i <;> decide
  · have h1 : Nat.testBit 0x1c0 (6 + i) = false :=
      Nat.testBit_lt_two_pow (by
        calc (0x1c0 : Nat) < 2 ^ 9 := by norm_num
        _ ≤ 2 ^ (6 + i) := Nat.pow_le_pow_right (by norm_num) (by omega))
    have h2 : Nat.testBit 7 i = false :=
      Nat.testBit_lt_two_pow (by
        calc (7 : Nat) < 2 ^ 3 := by norm_num
        _ ≤ 2 ^ i := Nat.pow_le_pow_right (by norm_num) (by omega))
    rw [h1, h2]

/-- Bit content of the literal 2. -/
theorem testBit_two_lit (i : Nat) : Nat.testBit 2 i = decide (1 = i) := by
  have e : (2 : Nat) = 2 ^ 1 := by norm_num
  conv_lhs => rw [e]
  rw [Nat.testBit_two_pow]

/-- Bit content of the literal 8. -/
theorem testBit_eight_lit (i : Nat) : Nat.testBit 8 i = decide (3 = i) := by
  have e : (8 : Nat) = 2 ^ 3 := by norm_num
  conv_lhs => rw [e]
  rw [Nat.testBit_two_pow]

/-- Setting bit 1 makes it readable: `(t ||| 2) &&& 2 = 2`. -/
theorem or_two_and_two (t : Nat) : (t ||| 2) &&& 2 = 2 := by
  apply Nat.eq_of_testBit_eq
  intro i
  rw [Nat.testBit_and, Nat.testBit_or, testBit_two_lit]
  by_cases h : 1 = i <;> simp [h]

/-- Bit 3 is unaffected by setting bit 1: `(t ||| 2) &&& 8 = t &&& 8`. -/
theorem or_two_and_eight (t : Nat) : (t ||| 2) &&& 8 = t &&& 8 := by
  apply Nat.eq_of_testBit_eq
  intro i
  rw [Nat.testBit_and, Nat.testBit_or, Nat.testBit_and, testBit_two_lit,
    testBit_eight_lit]
  by_cases h : 3 = i
  · subst h; simp
  · simp [h]

/-! ### Claims C8 and C10 — the timer facade and tick -/

/-- C8: for every value `data` written to the timer control register TCR,
the stored TCR value afterwards equals
`(data & 0xFD) | 0xE4 | (previous & 0x02)`, except that when `data & 4` is
set, bit 1 of the stored value is additionally cleared (expressed by the
`&&& 0xfd` mask, which clears exactly bit 1 here since the value is below
0x100). -/
theorem claim_C8 (st : HwState) (data input : Nat) :
    (io_w st 0x20 data input).regs.tcr =
      if data &&& 4 ≠ 0 then
        ((data &&& 0xfd) ||| 0xe4 ||| (st.regs.tcr &&& 2)) &&& 0xfd
      else
        (data &&& 0xfd) ||| 0xe4 ||| (st.regs.tcr &&& 2) := by
  simp only [io_w]
  split_ifs <;> simp

/-- C10: if the timer latch is 0 and the counter is 0 (with the TLB/THB
mirrors showing that zero count), a timer tick leaves the counter, the
latch and the mirrors at 0, sets TCR bit 1, and asserts CPU interrupt
line 1 whenever TCR bit 3 is set.  Since the post-state satisfies the same
hypotheses, the zero flag and (if enabled) the interrupt fire on every
tick, not once per period. -/
theorem claim_C10 (st : HwState) (hl : st.timer.latch = 0)
    (hc : st.timer.count = 0) (htl : st.regs.tlb = 0) (hth : st.regs.thb = 0) :
    (m_timer_tick st).timer.count = 0 ∧
    (m_timer_tick st).timer.latch = 0 ∧
    (m_timer_tick st).regs.tlb = 0 ∧
    (m_timer_tick st).regs.thb = 0 ∧
    (m_timer_tick st).regs.tcr &&& 2 = 2 ∧
    (st.regs.tcr &&& 8 ≠ 0 → (m_timer_tick st).line1 = true) := by
  simp only [m_timer_tick, hl, hc, htl, hth]
  simp only [gt_iff_lt, Nat.lt_irrefl, if_false]
  rw [or_two_and_eight]
  constructor
  · split_ifs <;> simp [hl, hc]
  constructor
  · split_ifs <;> simp [hl]
  constructor
  · split_ifs <;> simp [htl]
  constructor
  · split_ifs <;> simp [hth]
  constructor
  · split_ifs <;> simp [or_two_and_two]
  · intro h
    split_ifs <;> simp_all

/-- Witness for C10 at a concrete state. -/
theorem claim_C10_witness :
    (m_timer_tick c10_state).timer.count = 0 ∧
    (m_timer_tick c10_state).line1 = true :=
  ⟨(claim_C10 c10_state rfl rfl rfl rfl).1,
   (claim_C10 c10_state rfl rfl rfl rfl).2.2.2.2.2 (by decide)⟩

/-! ### Claim C1 — the bgmap fetch offset of `get_bg_map_pixel` -/

/-- C1 counterexample: at segment 0 and masked source coordinates
`(x, y) = (2048, 0)` (legitimate under the largest mask `x_mask = 4095`,
i.e. `SCX = 3`), the offset actually fetched is `0x4000` (the code's
`stepx = (cx & 0x1c0) >> 6` keeps three bits, giving `stepx = 4`), while
the claimed formula with `stepx = (cx >> 6) & 3` gives offset `0`. -/
theorem claim_C1_counterexample :
    ¬ bg_map_fetch_offset 0 2048 0 = bg_map_fetch_offset_claimed 0 2048 0 := by
  decide

/-- C1 (amended): the pixel sampler fetches the bgmap entry at word offset
`(cx & 63) + 64*(cy & 63) + 0x1000 * (segment + stepx + stepy)` with
`cx = x >> 3`, `cy = y >> 3`, `stepx = (cx >> 6) & 7` (three bits, not
two) and `stepy = ((cy >> 6) & 7) * (stepx + 1)`. -/
theorem claim_C1_amended (num xpos ypos : Nat) :
    bg_map_fetch_offset num xpos ypos =
      ((xpos >>> 3) &&& 63) + 64 * ((ypos >>> 3) &&& 63) +
        0x1000 * (num + (((xpos >>> 3) >>> 6) &&& 7) +
          (((ypos >>> 3) >>> 6) &&& 7) * ((((xpos >>> 3) >>> 6) &&& 7) + 1)) := by
  simp only [bg_map_fetch_offset]
  rw [and_0x1c0_shiftRight, and_0x1c0_shiftRight]
  ring

/-! ### Claim C3 — the character-table mirror scenario -/

/-- C3 counterexample: after `font0_w(0, 0xAAAA, 0xffff)` the flip-x
mirror at font address 0x10000 holds 0xAAAA, not the claimed 0x5555
(the row permutation reverses 2-bit pixel pairs and fixes 0xAAAA; it does
not swap adjacent bits). -/
theorem claim_C3_counterexample :
    ¬ READ_FONT (font0_w font_init 0 0xAAAA 0xffff) 0x10000 = 0x5555 := by
  decide

/-- C3 (amended): after writing 0xAAAA to character-table word 0 of bank 0
with full mask, the flip-x read at font address 0x10000 returns
`bitswap_pairs 0xAAAA = 0xAAAA` (the pair-reversal permutation fixes
0xAAAA), and the flip-y read at font address 0x8007 returns 0xAAAA. -/
theorem claim_C3_amended :
    READ_FONT (font0_w font_init 0 0xAAAA 0xffff) 0x10000 = bitswap_pairs 0xAAAA ∧
    bitswap_pairs 0xAAAA = 0xAAAA ∧
    READ_FONT (font0_w font_init 0 0xAAAA 0xffff) 0x8007 = 0xAAAA := by
  refine ⟨by decide, by decide, by decide⟩

/-! ### Claim C6 — the VIP interrupt line invariant -/

/-- C6: after a VIP interrupt raise (`m_set_irq`, the single function the
scheduler and register file use to change INTPND), after a write to INTENB
(0x02) or INTCLR (0x04), and after a write to DPCTRL (0x22) with DPRST set
or XPCTRL (0x42) with XPRST set, CPU interrupt line 4 is asserted if and
only if `INTENB & INTPND ≠ 0`; in particular a pending bit whose enable
bit is clear never drives the line. -/
theorem claim_C6 (st : VipState) (d v : Nat) :
    line4_ok (m_set_irq st v) ∧
    line4_ok (vip_w st 0x02 d) ∧
    line4_ok (vip_w st 0x04 d) ∧
    (d &&& 1 ≠ 0 → line4_ok (vip_w st 0x22 d) ∧ line4_ok (vip_w st 0x42 d)) := by
  refine ⟨?_, ?_, ?_, fun hd => ⟨?_, ?_⟩⟩
  · simp only [m_set_irq, line4_ok]
    split_ifs with hc <;> simp_all [Nat.or_zero]
  · simp only [vip_w, m_set_irq, line4_ok]
    split_ifs with hc <;> simp_all [Nat.or_zero]
  · simp only [vip_w, m_set_irq, line4_ok]
    split_ifs with hc <;> simp_all [Nat.or_zero]
  · simp only [vip_w, m_set_irq, line4_ok, if_pos hd]
    split_ifs with hc <;> simp_all [Nat.or_zero]
  · simp only [vip_w, m_set_irq, line4_ok, if_pos hd]
    split_ifs with hc <;> simp_all [Nat.or_zero]

/-- Witness for C6: the DPCTRL-with-DPRST case at a concrete state with a
pending-but-not-enabled interrupt and a stale asserted line. -/
theorem claim_C6_witness : line4_ok (vip_w c6_state 0x22 1) :=
  ((claim_C6 c6_state 1 0).2.2.2 (by decide)).1

/-! ### Claim C9 — display off: fill only, nothing drawn -/

/-- C9: when DPCTRL bit 1 (DISP) is clear, a render pass for either eye
performs no drawing activity at all (no background, affine or object
command is emitted, hence the shared object-group cursor is never
consumed), and the output bitmap holds the BKCOL pen at every point of
the clip rectangle. -/
theorem claim_C9 (st : VipState) (pen : Nat → Nat) (bitmap : Int × Int → Nat)
    (clip : Clip) (h : st.DPCTRL &&& 2 = 0) :
    (screen_update_vboy_left st pen bitmap clip).2 = [] ∧
    (screen_update_vboy_right st pen bitmap clip).2 = [] ∧
    ∀ p : Int × Int, Clip.contains clip p.1 p.2 = true →
      (screen_update_vboy_left st pen bitmap clip).1 p = pen st.BKCOL ∧
      (screen_update_vboy_right st pen bitmap clip).1 p = pen st.BKCOL := by
  refine ⟨?_, ?_, fun p hp => ⟨?_, ?_⟩⟩ <;>
    simp_all [screen_update_vboy_left, screen_update_vboy_right, screen_update, h]

/-- Clip rectangle of the 384×224 output surface. -/
def c9_clip : Clip := ⟨0, 383, 0, 223⟩

/-- Witness for C9 at a concrete display-off state. -/
theorem claim_C9_witness :
    (screen_update_vboy_left c9_state (fun n => n) (fun _ => 9) c9_clip).2 = [] ∧
    (screen_update_vboy_left c9_state (fun n => n) (fun _ => 9) c9_clip).1 (0, 0) = 2 :=
  ⟨(claim_C9 c9_state (fun n => n) (fun _ => 9) c9_clip (by decide)).1,
   (((claim_C9 c9_state (fun n => n) (fun _ => 9) c9_clip (by decide)).2.2
      (0, 0) (by decide)).1).trans (by decide)⟩

/-! ### Claim C5 — the END bit stops the world walk -/

/-- Every draw command emitted by `obj_entry_cmds` carries the world
number it was invoked for. -/
theorem obj_entry_cmds_world (st : VipState) (num : Nat) (right : Bool)
    (i : Nat) (c : DrawCmd) (hc : c ∈ obj_entry_cmds st num right i) :
    c.world = num := by
  simp only [obj_entry_cmds] at hc
  split_ifs at hc <;>
    simp only [List.append_nil, List.nil_append, List.mem_append,
      List.mem_singleton, List.not_mem_nil, or_false, false_or] at hc <;>
    first
      | (rcases hc with rfl | rfl <;> rfl)
      | (subst hc; rfl)

/-- Every draw command emitted by `display_world` for world `num` carries
world number `num`. -/
theorem display_world_cmds_world (st : VipState) (num : Nat) (right : Bool)
    (spt : Int) (c : DrawCmd) (hc : c ∈ (display_world st num right spt).1) :
    c.world = num := by
  simp only [display_world] at hc
  split_ifs at hc <;>
    simp only [List.append_nil, List.nil_append, List.mem_append,
      List.mem_singleton, List.not_mem_nil, List.mem_flatMap, or_false,
      false_or] at hc <;>
    first
      | (obtain ⟨i, _, hci⟩ := hc
         exact obj_entry_cmds_world st num right i c hci)
      | (rcases hc with (rfl | rfl) | rfl <;> rfl)
      | (rcases hc with rfl | rfl <;> rfl)
      | (subst hc; rfl)

/-- A world whose END bit is set draws nothing, leaves the cursor alone
and stops the walk. -/
theorem display_world_end_nil (st : VipState) (num : Nat) (right : Bool)
    (spt : Int) (h : world_end st num) :
    display_world st num right spt = ([], spt, 1) := by
  simp only [display_world]
  have h' : READ_WORLD st.bgmap (num <<< 4) >>> 6 &&& 1 ≠ 0 := h
  rw [if_pos h']

/-- If `display_world` reports the stop flag, it emitted no commands. -/
theorem display_world_ret_one (st : VipState) (num : Nat) (right : Bool)
    (spt : Int) (h : (display_world st num right spt).2.2 = 1) :
    (display_world st num right spt).1 = [] := by
  simp only [display_world] at h ⊢
  split_ifs at h ⊢ <;> simp_all

/-- Walk lemma: given any world `j` with its END bit set, every command
emitted while walking from world `i` downward comes from a world strictly
above `j`, provided `j ≤ i`. -/
theorem walk_worlds_above_end (st : VipState) (right : Bool) (j : Nat)
    (hj : world_end st j) :
    ∀ i spt, ∀ c ∈ (walk_worlds st right i spt).1, j ≤ i → j < c.world := by
  intro i
  induction i with
  | zero =>
    intro spt c hc h0
    have hj0 : j = 0 := Nat.le_zero.mp h0
    subst hj0
    rw [show walk_worlds st right 0 spt =
      ((display_world st 0 right spt).1, (display_world st 0 right spt).2.1)
      from rfl] at hc
    rw [display_world_end_nil st 0 right spt hj] at hc
    simp at hc
  | succ i ih =>
    intro spt c hc hle
    simp only [walk_worlds] at hc
    by_cases hr : (display_world st (i + 1) right spt).2.2 = 1
    · rw [if_pos hr] at hc
      rcases Nat.lt_or_ge j (i + 1) with hlt | hge
      · have hw := display_world_cmds_world st (i + 1) right spt c hc
        omega
      · have hj1 : j = i + 1 := by omega
        subst hj1
        rw [display_world_end_nil st _ right spt hj] at hc
        simp at hc
    · rw [if_neg hr] at hc
      rw [List.mem_append] at hc
      rcases hc with hc | hc
      · rcases Nat.lt_or_ge j (i + 1) with hlt | hge
        · have hw := display_world_cmds_world st (i + 1) right spt c hc
          omega
        · have hj1 : j = i + 1 := by omega
          subst hj1
          rw [display_world_end_nil st _ right spt hj] at hc
          simp at hc
      · rcases Nat.lt_or_ge j (i + 1) with hlt | hge
        · exact ih _ c hc (by omega)
        · have hj1 : j = i + 1 := by omega
          subst hj1
          refine absurd ?_ hr
          rw [display_world_end_nil st _ right spt hj]

/-- C5: an eye render pass walks worlds from 31 down to 0 and stops at the
first world whose END bit is set: that world and every world with a
smaller index draw nothing (emit no command), regardless of their LON/RON
bits.  Stated as: if any world `j ≤ 31` has its END bit set, every command
of the pass comes from a world with index strictly greater than `j`. -/
theorem claim_C5 (st : VipState) (right : Bool) (j : Nat) (hj : world_end st j)
    (hj31 : j ≤ 31) :
    ∀ c ∈ (walk_worlds st right 31 3).1, j < c.world :=
  fun c hc => walk_worlds_above_end st right j hj 31 3 c hc hj31

/-- Witness for C5: with world 30's END bit set in `c5_state`, the first
command of the left-eye walk (world 31's background draw) has world
number above 30. -/
theorem claim_C5_witness :
    30 < ((walk_worlds c5_state false 31 3).1.getD 0 (DrawCmd.fillOvr 0 0 0)).world :=
  claim_C5 c5_state false 30 (by decide) (by decide) _ (by decide)

/-! ### Claim C4 — the object walker's visit sequence -/

/-- The C decrement-and-mask `i--; i &= 0x3ff` on an index below 1024. -/
theorem obj_dec_eq (i : Nat) (h : i < 0x400) :
    maskI ((i : Int) - 1) 0x3ff = (i + 0x3ff) % 0x400 := by
  unfold maskI
  show ((((i : Int) - 1) % (1024 : Int)).toNat) = (i + 0x3ff) % 0x400
  omega

/-- Closed form of the object walker's visit list: walking from `i` with
`n` entries still to visit (`n ≡ i - e  (mod 1024)`, `1 ≤ n ≤ 1024`)
yields exactly the indices `i, i-1, ..., i-n+1` modulo 1024. -/
theorem obj_walk_formula :
    ∀ n, 1 ≤ n → n ≤ 0x400 →
    ∀ i e fuel, i < 0x400 → e < 0x400 → n ≤ fuel →
      (i + 0x400 - e) % 0x400 = n % 0x400 →
      obj_walk e fuel i = (List.range n).map (fun k => (i + 0x800 - k) % 0x400) := by
  intro n
  induction n with
  | zero => omega
  | succ n ih =>
    intro h1 hle i e fuel hi he hfuel hmod
    obtain ⟨f, rfl⟩ : ∃ f, fuel = f + 1 := ⟨fuel - 1, by omega⟩
    simp only [obj_walk]
    rw [obj_dec_eq i hi]
    by_cases hn : n = 0
    · subst hn
      have he2 : (i + 0x3ff) % 0x400 = e := by omega
      rw [if_pos he2]
      simp only [Nat.zero_add, List.range_succ, List.range_zero,
        List.nil_append, List.map_cons, List.map_nil, List.cons.injEq,
        and_true]
      omega
    · have hne : ¬(i + 0x3ff) % 0x400 = e := by omega
      rw [if_neg hne]
      rw [ih (by omega) (by omega) ((i + 0x3ff) % 0x400) e f
        (by omega) he (by omega) (by omega)]
      rw [List.range_succ_eq_map]
      simp only [List.map_cons, List.map_map, List.cons.injEq]
      refine ⟨by omega, ?_⟩
      apply List.map_congr_left
      intro k hk
      rw [List.mem_range] at hk
      simp only [Function.comp_apply, Nat.succ_eq_add_one]
      omega

/-- C4 (amended): for every object-group walk with `start = SPT[cur_spt]`
and `end` as in the source, both below 1024 (SPT registers are masked with
0x3ff on write), the walker visits exactly `(start - end) mod 1024`
entries when `start ≠ end` and 1024 entries when `start = end` (not
`(end - start) mod 1024` as claimed), in descending index order modulo
1024, and always at most 1024 entries. -/
theorem claim_C4_amended (start e : Nat) (hs : start < 0x400) (he : e < 0x400) :
    obj_walk_list start e =
      (List.range (obj_walk_len start e)).map (fun k => (start + 0x800 - k) % 0x400) ∧
    obj_walk_len start e ≤ 0x400 := by
  constructor
  · unfold obj_walk_list obj_walk_len
    by_cases hse : start = e
    · rw [if_pos hse]
      exact obj_walk_formula 0x400 (by norm_num) (by norm_num) start e 0x400
        hs he (le_refl _) (by omega)
    · rw [if_neg hse]
      exact obj_walk_formula ((start + 0x400 - e) % 0x400) (by omega) (by omega)
        start e 0x400 hs he (by omega) (by omega)
  · unfold obj_walk_len
    split_ifs <;> omega

/-- C4 counterexample: with `SPT[3] = 5` (start) and `SPT[2] = 3` (end),
the walker visits the 2 entries `5, 4`, not `(end - start) mod 1024 =
1022` entries as the claim's formula demands. -/
theorem claim_C4_counterexample :
    ¬ (obj_walk_list 5 3).length = (0x400 + 3 - 5) % 0x400 := by
  decide

/-- Witness for C4 at concrete cursor values `start = 5`, `end = 3`. -/
theorem claim_C4_witness :
    obj_walk_list 5 3 = [5, 4] ∧ obj_walk_len 5 3 ≤ 0x400 :=
  ⟨(claim_C4_amended 5 3 (by decide) (by decide)).1.trans (by decide),
   (claim_C4_amended 5 3 (by decide) (by decide)).2⟩

/-! ### Claim C2 — the pre-flipped font mirrors -/

/-- Reading back the word just stored by `upd`. -/
theorem upd_self (f : Nat → Nat) (i v : Nat) : upd f i v i = v := by
  simp [upd]

/-- A `WRITE_FONT` write at primary offset `w` seen from the normal bank:
only the word `w` itself changes. -/
theorem WRITE_FONT_at_normal (f : Nat → Nat) (w d m : Nat) (hw : w < 0x4000)
    (j : Nat) (hj : j < 0x4000) :
    WRITE_FONT f w d m j =
      if j = w then COMBINE_DATA (f w) d m else f j := by
  have e8 : (w + 0x8000) ^^^ 7 = 0x8000 + 8 * (w / 8) + (7 - w % 8) := by
    rw [xor_seven_eq]; omega
  have ec : (w + 0xc000) ^^^ 7 = 0xc000 + 8 * (w / 8) + (7 - w % 8) := by
    rw [xor_seven_eq]; omega
  have e18 : (w + 0x18000) ^^^ 7 = 0x18000 + 8 * (w / 8) + (7 - w % 8) := by
    rw [xor_seven_eq]; omega
  have e1c : (w + 0x1c000) ^^^ 7 = 0x1c000 + 8 * (w / 8) + (7 - w % 8) := by
    rw [xor_seven_eq]; omega
  simp only [WRITE_FONT, upd_self, upd, if_true, e8, ec, e18, e1c]
  rw [if_neg (by omega), if_neg (by omega), if_neg (by omega),
    if_neg (by omega), if_neg (by omega), if_neg (by omega),
    if_neg (by omega)]

/-- A `WRITE_FONT` write at primary offset `w` seen from the flip-y mirror
bank: the word for tile `t`, row `r` changes exactly when `w` addresses
tile `t`, row `7 - r`. -/
theorem WRITE_FONT_at_vflip (f : Nat → Nat) (w d m : Nat) (hw : w < 0x4000)
    (t r : Nat) (ht : t < 0x800) (hr : r < 8) :
    WRITE_FONT f w d m (0x8000 + 8 * t + r) =
      if w = 8 * t + (7 - r) then COMBINE_DATA (f w) d m
      else f (0x8000 + 8 * t + r) := by
  have e8 : (w + 0x8000) ^^^ 7 = 0x8000 + 8 * (w / 8) + (7 - w % 8) := by
    rw [xor_seven_eq]; omega
  have ec : (w + 0xc000) ^^^ 7 = 0xc000 + 8 * (w / 8) + (7 - w % 8) := by
    rw [xor_seven_eq]; omega
  have e18 : (w + 0x18000) ^^^ 7 = 0x18000 + 8 * (w / 8) + (7 - w % 8) := by
    rw [xor_seven_eq]; omega
  have e1c : (w + 0x1c000) ^^^ 7 = 0x1c000 + 8 * (w / 8) + (7 - w % 8) := by
    rw [xor_seven_eq]; omega
  simp only [WRITE_FONT, upd_self, upd, if_true, e8, ec, e18, e1c]
  rw [if_neg (by omega), if_neg (by omega), if_neg (by omega),
    if_neg (by omega), if_neg (by omega)]
  by_cases hc : w = 8 * t + (7 - r)
  · rw [if_pos (by omega), if_pos hc]
  · rw [if_neg (by omega), if_neg (by omega), if_neg (by omega), if_neg hc]

/-- A `WRITE_FONT` write at primary offset `w` seen from the flip-x mirror
bank: the word for tile `t`, row `r` changes exactly when `w` addresses
tile `t`, row `r`, and receives the pair-reversed data. -/
theorem WRITE_FONT_at_hflip (f : Nat → Nat) (w d m : Nat) (hw : w < 0x4000)
    (t r : Nat) (ht : t < 0x800) (hr : r < 8) :
    WRITE_FONT f w d m (0x10000 + 8 * t + r) =
      if w = 8 * t + r then bitswap_pairs (COMBINE_DATA (f w) d m)
      else f (0x10000 + 8 * t + r) := by
  have e8 : (w + 0x8000) ^^^ 7 = 0x8000 + 8 * (w / 8) + (7 - w % 8) := by
    rw [xor_seven_eq]; omega
  have ec : (w + 0xc000) ^^^ 7 = 0xc000 + 8 * (w / 8) + (7 - w % 8) := by
    rw [xor_seven_eq]; omega
  have e18 : (w + 0x18000) ^^^ 7 = 0x18000 + 8 * (w / 8) + (7 - w % 8) := by
    rw [xor_seven_eq]; omega
  have e1c : (w + 0x1c000) ^^^ 7 = 0x1c000 + 8 * (w / 8) + (7 - w % 8) := by
    rw [xor_seven_eq]; omega
  simp only [WRITE_FONT, upd_self, upd, if_true, e8, ec, e18, e1c]
  rw [if_neg (by omega), if_neg (by omega), if_neg (by omega)]
  by_cases hc : w = 8 * t + r
  · rw [if_pos (by omega), if_pos hc]
  · rw [if_neg (by omega), if_neg (by omega), if_neg (by omega),
      if_neg (by omega), if_neg (by omega), if_neg hc]

/-- A `WRITE_FONT` write at primary offset `w` seen from the flip-x+y
mirror bank: the word for tile `t`, row `r` changes exactly when `w`
addresses tile `t`, row `7 - r`, and receives the pair-reversed data. -/
theorem WRITE_FONT_at_xyflip (f : Nat → Nat) (w d m : Nat) (hw : w < 0x4000)
    (t r : Nat) (ht : t < 0x800) (hr : r < 8) :
    WRITE_FONT f w d m (0x18000 + 8 * t + r) =
      if w = 8 * t + (7 - r) then bitswap_pairs (COMBINE_DATA (f w) d m)
      else f (0x18000 + 8 * t + r) := by
  have e8 : (w + 0x8000) ^^^ 7 = 0x8000 + 8 * (w / 8) + (7 - w % 8) := by
    rw [xor_seven_eq]; omega
  have ec : (w + 0xc000) ^^^ 7 = 0xc000 + 8 * (w / 8) + (7 - w % 8) := by
    rw [xor_seven_eq]; omega
  have e18 : (w + 0x18000) ^^^ 7 = 0x18000 + 8 * (w / 8) + (7 - w % 8) := by
    rw [xor_seven_eq]; omega
  have e1c : (w + 0x1c000) ^^^ 7 = 0x1c000 + 8 * (w / 8) + (7 - w % 8) := by
    rw [xor_seven_eq]; omega
  simp only [WRITE_FONT, upd_self, upd, if_true, e8, ec, e18, e1c]
  rw [if_neg (by omega)]
  by_cases hc : w = 8 * t + (7 - r)
  · rw [if_pos (by omega), if_pos hc]
  · rw [if_neg (by omega), if_neg (by omega), if_neg (by omega),
      if_neg (by omega), if_neg (by omega), if_neg (by omega),
      if_neg (by omega), if_neg hc]

/-- The cleared initial font satisfies the mirror invariant. -/
theorem font_mirrors_ok_init : font_mirrors_ok font_init := by
  intro t r
  refine ⟨rfl, ?_, ?_⟩
  · show (0 : Nat) = bitswap_pairs 0
    decide
  · show (0 : Nat) = bitswap_pairs 0
    decide

/-- Any single write through a primary character-table window preserves
the mirror invariant. -/
theorem WRITE_FONT_preserves (f : Nat → Nat) (hf : font_mirrors_ok f)
    (w d m : Nat) (hw : w < 0x4000) :
    font_mirrors_ok (WRITE_FONT f w d m) := by
  intro t r
  obtain ⟨h1, h2, h3⟩ := hf t r
  have ht : t.val < 0x800 := t.isLt
  have hr : r.val < 8 := r.isLt
  refine ⟨?_, ?_, ?_⟩
  · rw [WRITE_FONT_at_vflip f w d m hw t.val r.val ht hr,
      WRITE_FONT_at_normal f w d m hw (8 * t.val + (7 - r.val)) (by omega)]
    by_cases hc : w = 8 * t.val + (7 - r.val)
    · rw [if_pos hc, if_pos (by omega)]
    · rw [if_neg hc, if_neg (by omega)]
      exact h1
  · rw [WRITE_FONT_at_hflip f w d m hw t.val r.val ht hr,
      WRITE_FONT_at_normal f w d m hw (8 * t.val + r.val) (by omega)]
    by_cases hc : w = 8 * t.val + r.val
    · rw [if_pos hc, if_pos (by omega)]
    · rw [if_neg hc, if_neg (by omega)]
      exact h2
  · rw [WRITE_FONT_at_xyflip f w d m hw t.val r.val ht hr,
      WRITE_FONT_at_normal f w d m hw (8 * t.val + (7 - r.val)) (by omega)]
    by_cases hc : w = 8 * t.val + (7 - r.val)
    · rw [if_pos hc, if_pos (by omega)]
    · rw [if_neg hc, if_neg (by omega)]
      exact h3

/-- C2: after any sequence of writes through the primary character-table
windows (starting from the cleared store), for every tile `t ∈ [0, 2047]`
and row `r ∈ [0, 7]`: the flip-y mirror word for `(t, r)` equals the
normal word for `(t, 7-r)`; the flip-x mirror word for `(t, r)` equals the
normal word for `(t, r)` with its bits 15..0 permuted as
`(b1,b0,b3,b2,...,b15,b14)` (the `bitswap_pairs` permutation); and the
flip-x+y mirror word for `(t, r)` equals that permutation of the normal
word for `(t, 7-r)`. -/
theorem claim_C2 (ws : List FontWrite) :
    font_mirrors_ok (apply_font_writes ws) := by
  unfold apply_font_writes
  suffices h : ∀ f, font_mirrors_ok f →
      font_mirrors_ok (ws.foldl
        (fun f wr => WRITE_FONT f wr.woffs.val wr.data wr.mem_mask) f) from
    h font_init font_mirrors_ok_init
  induction ws with
  | nil => intro f hf; exact hf
  | cons a l ih =>
    intro f hf
    simp only [List.foldl_cons]
    exact ih _ (WRITE_FONT_preserves f hf a.woffs.val a.data a.mem_mask a.woffs.isLt)

/-! ### Claim C7 — transparency never overwrites -/

/-- Every pixel of the bitmap produced by `draw_bg_map` is either the old
pixel or one painted at a loop position whose sample was not transparent. -/
theorem draw_bg_map_no_transparent_overwrite
    (bgmap gplt font : Nat → Nat) (ovrm : Nat → Int) (pen : Nat → Nat)
    (bitmap : Int × Int → Nat) (clip : Clip) (param_base mode : Nat)
    (gx gp gy mx mp my : Int) (h w x_mask y_mask : Nat) (ovr right : Bool)
    (bg_map_num : Nat) :
    ∀ q, draw_bg_map bgmap gplt font ovrm pen bitmap clip param_base mode
        gx gp gy mx mp my h w x_mask y_mask ovr right bg_map_num q
        = bitmap q ∨
      bg_drawn bgmap gplt font ovrm pen param_base mode gx gp gy mx mp my
        h w x_mask y_mask ovr right bg_map_num
        (draw_bg_map bgmap gplt font ovrm pen bitmap clip param_base mode
          gx gp gy mx mp my h w x_mask y_mask ovr right bg_map_num) q := by
  unfold draw_bg_map
  refine List.foldlRecOn
    (motive := fun bm => ∀ q, bm q = bitmap q ∨
      bg_drawn bgmap gplt font ovrm pen param_base mode gx gp gy mx mp my
        h w x_mask y_mask ovr right bg_map_num bm q)
    (List.range (h + 1)) _ bitmap (fun _ => Or.inl rfl) ?_
  intro bm hbm y hy
  intro q
  dsimp only
  by_cases hcy : ((y : Int) + gy < clip.min_y ∨ (y : Int) + gy > clip.max_y)
  · rw [if_pos hcy]
    exact hbm q
  · rw [if_neg hcy]
    revert q
    refine List.foldlRecOn
      (motive := fun bm2 => ∀ q, bm2 q = bitmap q ∨
        bg_drawn bgmap gplt font ovrm pen param_base mode gx gp gy mx mp my
          h w x_mask y_mask ovr right bg_map_num bm2 q)
      (List.range (w + 1)) _ bm hbm ?_
    intro bm2 hbm2 x hx q
    dsimp only
    by_cases hcx : (bg_dest_x gx gp right x < clip.min_x ∨
        bg_dest_x gx gp right x > clip.max_x)
    · rw [if_pos hcx]
      exact hbm2 q
    · rw [if_neg hcx]
      by_cases hpix : bg_pix bgmap gplt font ovrm param_base mode mx mp my
          x_mask y_mask ovr right bg_map_num x y ≠ -1
      · rw [if_pos hpix]
        by_cases hq : q = (bg_dest_x gx gp right x, (y : Int) + gy)
        · right
          refine ⟨x, y, Nat.lt_succ_iff.mp (List.mem_range.mp hx),
            Nat.lt_succ_iff.mp (List.mem_range.mp hy), hq, hpix, ?_⟩
          subst hq
          simp
        · rcases hbm2 q with hl | hr
          · left
            dsimp only
            rw [if_neg hq]
            exact hl
          · right
            obtain ⟨x', y', h1, h2, h3, h4, h5⟩ := hr
            exact ⟨x', y', h1, h2, h3, h4, by dsimp only; rw [if_neg hq]; exact h5⟩
      · rw [if_neg hpix]
        exact hbm2 q

/-- Every pixel of the bitmap produced by `draw_affine_map` is either the
old pixel or one painted at a loop position whose sample was not
transparent. -/
theorem draw_affine_map_no_transparent_overwrite
    (bgmap gplt font : Nat → Nat) (ovrm : Nat → Int) (pen : Nat → Nat)
    (bitmap : Int × Int → Nat) (clip : Clip) (param_base : Nat)
    (gx gp gy : Int) (h w x_mask y_mask : Nat) (ovr right : Bool)
    (bg_map_num : Nat) :
    ∀ q, draw_affine_map bgmap gplt font ovrm pen bitmap clip param_base
        gx gp gy h w x_mask y_mask ovr right bg_map_num q = bitmap q ∨
      affine_drawn bgmap gplt font ovrm pen param_base gx gp gy
        h w x_mask y_mask ovr right bg_map_num
        (draw_affine_map bgmap gplt font ovrm pen bitmap clip param_base
          gx gp gy h w x_mask y_mask ovr right bg_map_num) q := by
  unfold draw_affine_map
  refine List.foldlRecOn
    (motive := fun bm => ∀ q, bm q = bitmap q ∨
      affine_drawn bgmap gplt font ovrm pen param_base gx gp gy
        h w x_mask y_mask ovr right bg_map_num bm q)
    (List.range (h + 1)) _ bitmap (fun _ => Or.inl rfl) ?_
  intro bm hbm y hy
  intro q
  dsimp only
  revert q
  refine List.foldlRecOn
    (motive := fun bm2 => ∀ q, bm2 q = bitmap q ∨
      affine_drawn bgmap gplt font ovrm pen param_base gx gp gy
        h w x_mask y_mask ovr right bg_map_num bm2 q)
    (List.range (w + 1)) _ bm hbm ?_
  intro bm2 hbm2 x hx q
  dsimp only
  by_cases hpix : affine_pix bgmap gplt font ovrm param_base x_mask y_mask
      ovr right bg_map_num x y ≠ -1
  · rw [if_pos hpix]
    by_cases hcl : Clip.contains clip (affine_dest gx gp gy right x y).1
        (affine_dest gx gp gy right x y).2 = true
    · rw [if_pos hcl]
      by_cases hq : q = affine_dest gx gp gy right x y
      · right
        refine ⟨x, y, Nat.lt_succ_iff.mp (List.mem_range.mp hx),
          Nat.lt_succ_iff.mp (List.mem_range.mp hy), hq, hpix, ?_⟩
        subst hq
        simp
      · rcases hbm2 q with hl | hr
        · left
          dsimp only
          rw [if_neg hq]
          exact hl
        · right
          obtain ⟨x', y', h1, h2, h3, h4, h5⟩ := hr
          exact ⟨x', y', h1, h2, h3, h4, by dsimp only; rw [if_neg hq]; exact h5⟩
    · rw [if_neg hcl]
      exact hbm2 q
  · rw [if_neg hpix]
    exact hbm2 q

/-- C7: for every segment, x and y, `get_bg_map_pixel` returns the
transparent sentinel `-1` if and only if the 2-bit value read from the
character row at the sampled position is 0; and in both the Normal/HBias
draw loop (`draw_bg_map`) and the Affine draw loop (`draw_affine_map`) a
transparent result never overwrites the destination bitmap pixel: every
pixel either keeps its previous value or was painted by a loop position
whose sampled pixel was not `-1`. -/
theorem claim_C7 (bgmap gplt font : Nat → Nat) (ovrm : Nat → Int)
    (pen : Nat → Nat) (bitmap : Int × Int → Nat) (clip : Clip)
    (param_base mode : Nat) (gx gp gy mx mp my : Int)
    (h w x_mask y_mask : Nat) (ovr right : Bool) (bg_map_num : Nat)
    (num xpos ypos : Nat) (p : Int × Int) :
    (get_bg_map_pixel bgmap gplt font num xpos ypos = -1 ↔
      bg_sample_dat bgmap font num xpos ypos = 0) ∧
    (draw_bg_map bgmap gplt font ovrm pen bitmap clip param_base mode gx gp
        gy mx mp my h w x_mask y_mask ovr right bg_map_num p = bitmap p ∨
      bg_drawn bgmap gplt font ovrm pen param_base mode gx gp gy mx mp my
        h w x_mask y_mask ovr right bg_map_num
        (draw_bg_map bgmap gplt font ovrm pen bitmap clip param_base mode
          gx gp gy mx mp my h w x_mask y_mask ovr right bg_map_num) p) ∧
    (draw_affine_map bgmap gplt font ovrm pen bitmap clip param_base gx gp
        gy h w x_mask y_mask ovr right bg_map_num p = bitmap p ∨
      affine_drawn bgmap gplt font ovrm pen param_base gx gp gy
        h w x_mask y_mask ovr right bg_map_num
        (draw_affine_map bgmap gplt font ovrm pen bitmap clip param_base
          gx gp gy h w x_mask y_mask ovr right bg_map_num) p) := by
  refine ⟨?_,
    draw_bg_map_no_transparent_overwrite bgmap gplt font ovrm pen bitmap
      clip param_base mode gx gp gy mx mp my h w x_mask y_mask ovr right
      bg_map_num p,
    draw_affine_map_no_transparent_overwrite bgmap gplt font ovrm pen
      bitmap clip param_base gx gp gy h w x_mask y_mask ovr right
      bg_map_num p⟩
  simp only [get_bg_map_pixel]
  split_ifs with hd
  · simp [hd]
  · constructor
    · intro hcast
      exact hcast.elim
    · intro hzero
      exact absurd hzero hd

end Vboy
